import Mathlib

/-!
Verification of the recommendation engine of the movie-recommendation-system
repository (`movie_recommender.py`), via a shallow embedding in Lean 4.

Modelling conventions:
* A pandas `DataFrame` of movie records is a `DF`: a list of `Movie` rows plus
  one boolean per optional column recording whether that column is present
  (pandas column-presence checks such as `'genres_list' in df.columns` are
  per-frame, not per-row).
* A cell that holds Python `None`/`NaN` in an object column is `Option.none`;
  a well-typed cell is `some v`.
* Python numbers (`float` scores, ratings, popularity) are modelled as `ℚ`,
  except for cosine similarity itself, which involves square roots and is
  modelled over `ℝ`.  The similarity scores consumed by the ranking code are
  therefore passed as explicit `ℚ`-valued inputs: every claim proved about the
  ranking code is quantified over all score assignments, which in particular
  covers the one the floating-point cosine computation produces.
* Code that can raise a Python exception which is *not* swallowed by a
  surrounding `try/except` is modelled in `Except String`; code inside a
  `try/except Exception` block that returns `[]` on failure is modelled by
  returning `[]` on the corresponding failure condition.
-/

/-- One row of the movie catalog (`DataHandler.df`).  Fields that live in
object columns and can be null in a concrete frame are `Option`s. -/
structure Movie where
  id : Int
  title : String
  genres_list : Option (List String)
  keywords_list : Option (List String)
  cast_list : Option (List String)
  director : Option String
  vote_average : ℚ
  vote_count : ℕ
  popularity : ℚ
deriving DecidableEq, Repr

/-- Fallback row used to model `df.iloc` lookups that are guarded by an
index-validity check. -/
def dummyMovie : Movie :=
  ⟨0, "", none, none, none, none, 0, 0, 0⟩

/-- The movie table: rows plus pandas column-presence flags
(`'genres_list' in df.columns`, ...). -/
structure DF where
  movies : List Movie
  hasGenres : Bool
  hasKeywords : Bool
  hasCast : Bool
  hasDirector : Bool
  hasVoteAverage : Bool
  hasVoteCount : Bool
deriving DecidableEq, Repr

/-- Character-level composition of Python `str.lower()` followed by
`str.replace(' ', '_')` (both are character-wise for the catalog data). -/
def normChar (c : Char) : Char :=
  let l := c.toLower
  if l = ' ' then '_' else l

/-- `s.lower().replace(' ', '_')`, the token normalization of
`_initialize_recommendation_matrices`. -/
def normToken (s : String) : String :=
  ⟨s.data.map normChar⟩

/-- Genre tokens of one movie (line 49): the mapped list extended three times
(`[...] * 3` in Python), guarded by column presence and the
`isinstance(..., list)` cell check. -/
def genreTokens (df : DF) (m : Movie) : List String :=
  if df.hasGenres then
    match m.genres_list with
    | some gs =>
        let t := gs.map (fun g => "genre_" ++ normToken g)
        t ++ t ++ t
    | none => []
  else []

/-- Keyword tokens of one movie (line 53): weight `×1`. -/
def kwTokens (df : DF) (m : Movie) : List String :=
  if df.hasKeywords then
    match m.keywords_list with
    | some ks => ks.map (fun k => "kw_" ++ normToken k)
    | none => []
  else []

/-- Cast tokens of one movie (lines 56-59): only the first three billed cast
members, the mapped list extended twice (`[...] * 2`). -/
def castTokens (df : DF) (m : Movie) : List String :=
  if df.hasCast then
    match m.cast_list with
    | some cs =>
        let t := (cs.take 3).map (fun a => "actor_" ++ normToken a)
        t ++ t
    | none => []
  else []

/-- Director tokens of one movie (lines 62-63): one token repeated three times
(`[...] * 3`), guarded by column presence and cell truthiness. -/
def directorTokens (df : DF) (m : Movie) : List String :=
  if df.hasDirector then
    match m.director with
    | some d =>
        if d ≠ "" then List.replicate 3 ("director_" ++ normToken d) else []
    | none => []
  else []

/-- Per-movie feature token multiset of `_initialize_recommendation_matrices`
(lines 44-65), the four families concatenated in source order. -/
def featureTokens (df : DF) (m : Movie) : List String :=
  genreTokens df m ++ kwTokens df m ++ castTokens df m ++ directorTokens df m

/-- Global vocabulary: union of all per-movie tokens (Python builds a `set`;
the order is irrelevant, any deterministic order is acceptable per the spec). -/
def buildVocab (df : DF) : List String :=
  (df.movies.flatMap (featureTokens df)).dedup

/-- One row of the count-valued feature matrix: the count of each vocabulary
token in the movie's token multiset. -/
def featureRow (vocab : List String) (toks : List String) : List ℕ :=
  vocab.map (fun f => toks.count f)

/-- The movies × vocabulary count matrix (`self.feature_matrix`). -/
def featureMatrixOf (df : DF) : List (List ℕ) :=
  df.movies.map (fun m => featureRow (buildVocab df) (featureTokens df m))

/-- `self.movie_indices = {int(movie_id): idx for idx, movie_id in
enumerate(df['id'])}`: association pairs in catalog order. -/
def buildIndices (df : DF) : List (Int × ℕ) :=
  df.movies.enum.map (fun p => (p.2.id, p.1))

/-- Python-dict lookup on the association list built by a dict comprehension:
the *last* binding of a key wins. -/
def lookupIdx (l : List (Int × ℕ)) (k : Int) : Option ℕ :=
  (l.reverse.find? (fun p => p.1 = k)).map (fun p => p.2)

/-- Insert an element into a descending-sorted list, after all elements with a
greater-or-equal key.  This is the stability behaviour of Python's
`sorted(..., key=..., reverse=True)` and of pandas `nlargest(..)` with its
default `keep='first'`. -/
def insertDesc (key : α → ℚ) (x : α) : List α → List α
  | [] => [x]
  | y :: ys => if key y < key x then x :: y :: ys else y :: insertDesc key x ys

/-- Stable descending sort by a `ℚ`-valued key. -/
def sortDescBy (key : α → ℚ) : List α → List α
  | [] => []
  | x :: xs => insertDesc key x (sortDescBy key xs)


/-- Substring containment on character lists (Python's `in` on strings):
`hasRun hay need` is true when `need` occurs contiguously inside `hay`. -/
def leadRun : List Char → List Char → Bool
  | _, [] => true
  | [], _ :: _ => false
  | h :: hs, n :: ns => h = n && leadRun hs ns

def hasRun : List Char → List Char → Bool
  | hay, need => leadRun hay need ||
      match hay with
      | [] => false
      | _ :: hs => hasRun hs need

/-- Python `needle in hay` for strings. -/
def strIn (needle hay : String) : Bool :=
  hasRun hay.data needle.data

/-- User preferences dict (`user_preferences` with its three `.get(..., [])`
keys).  A Python value that is `None` or the empty dict is modelled as
`Option.none` at the call sites. -/
structure Prefs where
  favorite_genres : List String
  favorite_directors : List String
  favorite_actors : List String
deriving DecidableEq, Repr

/-- `mapM` over `Except`, written out so that its length behaviour is easy to
reason about. -/
def mapE (f : α → Except String β) : List α → Except String (List β)
  | [] => .ok []
  | x :: xs =>
    match f x with
    | .error e => .error e
    | .ok y =>
      match mapE f xs with
      | .error e => .error e
      | .ok ys => .ok (y :: ys)


/-- Python error message raised by `genre in x` on a null cell. -/
def msgGenreNull : String :=
  "TypeError: argument of type NoneType is not iterable"

/-- Python error message raised by `x.lower()` on a null director cell. -/
def msgDirectorNull : String :=
  "AttributeError: float object has no attribute lower"

/-- Python error message raised by iterating a null cast cell. -/
def msgCastNull : String :=
  "TypeError: NoneType is not iterable"

/-- `sum(1 for genre in favorite_genres if genre in x)` applied to a
`genres_list` cell (line 189).  `genre in x` is *case-sensitive* list
membership; a null cell makes the membership test raise `TypeError`. -/
def genreCellScore (favs : List String) (cell : Option (List String)) :
    Except String ℕ :=
  match cell with
  | some gs => .ok (favs.countP (fun g => gs.contains g))
  | none => .error msgGenreNull

/-- `3 if any(director.lower() in x.lower() for director in favorite_directors)
else 0` applied to a `director` cell (line 196); a null cell makes `x.lower()`
raise `AttributeError`. -/
def directorCellScore (favs : List String) (cell : Option String) :
    Except String ℚ :=
  match cell with
  | some d =>
      .ok (if favs.any (fun f => strIn f.toLower d.toLower) then 3 else 0)
  | none => .error msgDirectorNull

/-- `sum(1 for actor in favorite_actors if any(actor.lower() in cast.lower()
for cast in x))` applied to a `cast_list` cell (line 203); a null cell makes
the inner iteration raise `TypeError`. -/
def actorCellScore (favs : List String) (cell : Option (List String)) :
    Except String ℕ :=
  match cell with
  | some cs =>
      .ok (favs.countP (fun a => cs.any (fun c => strIn a.toLower c.toLower)))
  | none => .error msgCastNull

def maxQ : List ℚ → ℚ
  | [] => 0
  | x :: xs => xs.foldl max x

def minQ : List ℚ → ℚ
  | [] => 0
  | x :: xs => xs.foldl min x

/-- Whether the rating-normalization branch of
`get_personalized_recommendations` (lines 208-217) fires and creates the
`rating_norm` column. -/
def ratingApplies (df : DF) : Bool :=
  df.hasVoteAverage && df.hasVoteCount &&
    minQ (df.movies.map (fun m => m.vote_average)) <
      maxQ (df.movies.map (fun m => m.vote_average))

/-- The `rating_norm` column: min-max normalized `vote_average`, zeroed for
movies with fewer than 50 votes; all zeros when the branch does not fire. -/
def ratingCol (df : DF) : List ℚ :=
  if ratingApplies df then
    let vas := df.movies.map (fun m => m.vote_average)
    let mx := maxQ vas
    let mn := minQ vas
    df.movies.map (fun m =>
      if m.vote_count < 50 then 0 else (m.vote_average - mn) / (mx - mn))
  else df.movies.map (fun _ => 0)

/-- The three preference columns plus rating, summed movie-wise into the
`score` column of `get_personalized_recommendations` (lines 184-217):
`2·genre_score + director_score + 1.5·actor_score + rating_norm`, each
preference column only present when the preference list is non-empty and the
catalog column exists.  Any null cell hit by a fired branch raises. -/
def scoredRowsE (df : DF) (p : Prefs) : Except String (List (Movie × ℚ)) :=
  match (if p.favorite_genres ≠ [] ∧ df.hasGenres then
      mapE (fun m => (genreCellScore p.favorite_genres m.genres_list).map
        (fun c => (c : ℚ) * 2)) df.movies
    else .ok (df.movies.map (fun _ => 0))) with
  | .error e => .error e
  | .ok gCol =>
    match (if p.favorite_directors ≠ [] ∧ df.hasDirector then
        mapE (fun m => directorCellScore p.favorite_directors m.director)
          df.movies
      else .ok (df.movies.map (fun _ => 0))) with
    | .error e => .error e
    | .ok dCol =>
      match (if p.favorite_actors ≠ [] ∧ df.hasCast then
          mapE (fun m => (actorCellScore p.favorite_actors m.cast_list).map
            (fun c => (c : ℚ) * 1.5)) df.movies
        else .ok (df.movies.map (fun _ => 0))) with
      | .error e => .error e
      | .ok aCol =>
        .ok (df.movies.zip ((gCol.zipWith (· + ·) dCol).zipWith (· + ·)
          ((aCol.zipWith (· + ·) (ratingCol df)))))

/-- The temporary scoring columns created on the working frame, in creation
order (`score` at line 184, then the conditional ones). -/
def createdCols (df : DF) (p : Prefs) : List String :=
  "score" ::
    ((if p.favorite_genres ≠ [] ∧ df.hasGenres then ["genre_score"] else []) ++
     (if p.favorite_directors ≠ [] ∧ df.hasDirector then ["director_score"] else []) ++
     (if p.favorite_actors ≠ [] ∧ df.hasCast then ["actor_score"] else []) ++
     (if ratingApplies df then ["rating_norm"] else []))

/-- Modelled from the spec: `DataHandler.get_popular_movies` lives in
`data_handler.py`, which is not part of the sources; per the spec it is the
catalog accessor's popularity ranking, returning at most `limit` plain movie
records ordered by descending `popularity`. -/
def getPopularMovies (df : DF) (limit : ℕ) : List Movie :=
  (sortDescBy (fun m => m.popularity) df.movies).take limit

/-- `get_popular_recommendations` (line 94): a direct delegation. -/
def get_popular_recommendations (df : DF) (limit : ℕ) : List Movie :=
  getPopularMovies df limit

/-- `get_personalized_recommendations` (lines 157-242).  Returns the selected
records together with the list of temporary scoring columns still attached to
them: the clean-up loop at lines 237-240 drops the columns from `df`, not from
`recommended`, so the returned records keep every created scoring column
(padded popularity rows keep them as pandas-`NaN` cells after `pd.concat`).
The result is `Except` because the scoring lambdas can raise on null cells and
no `try/except` protects this method. -/
def get_personalized_recommendations (df : DF) (prefs : Option Prefs)
    (limit : ℕ) : Except String (List Movie × List String) :=
  match prefs with
  | none => .ok (get_popular_recommendations df limit, [])
  | some p =>
    if df.movies.length = 0 then .ok ([], []) else
    match scoredRowsE df p with
    | .error e => .error e
    | .ok rows =>
      let recommended := (sortDescBy (fun r => r.2) rows).take limit
      let positives := recommended.filter (fun r => 0 < r.2)
      let cols := createdCols df p
      if positives.length < limit then
        let zsc := (recommended.filter (fun r => r.2 = 0)).length
        if 0 < zsc then
          let popular := getPopularMovies df zsc
          let existing := positives.map (fun r => r.1.id)
          let popular' := popular.filter (fun m => ¬ existing.contains m.id)
          .ok (positives.map (fun r => r.1) ++
            popular'.take (limit - positives.length), cols)
        else .ok (recommended.map (fun r => r.1), cols)
      else .ok (recommended.map (fun r => r.1), cols)

/-- Modelled from the spec: `DataHandler.get_movie_recommendations` lives in
`data_handler.py`, which is not part of the sources.  Per the spec it is the
catalog accessor's own non-matrix recommendation method and lookups for
unknown ids fail gracefully with an empty result; for a known id it serves
other catalog records. -/
def getMovieRecommendations (df : DF) (movie_id : Int) (limit : ℕ) :
    List Movie :=
  if df.movies.any (fun m => m.id = movie_id) then
    (df.movies.filter (fun m => m.id ≠ movie_id)).take limit
  else []

/-- `get_similar_movies_improved` (lines 112-155).  The whole body is wrapped
in `try/except` returning `[]`, so the two `iloc`-style accesses are modelled
by returning `[]` when out of range.  The similarity matrix is taken as data
(`ℚ`-valued), quantified over in the theorems. -/
def get_similar_movies_improved (df : DF) (sim : Option (List (List ℚ)))
    (indices : List (Int × ℕ)) (movie_id : Int) (limit : ℕ) : List Movie :=
  match sim with
  | none => []
  | some s =>
    if indices.isEmpty then [] else
    match lookupIdx indices movie_id with
    | none => []
    | some movie_idx =>
      match s.get? movie_idx with
      | none => []
      | some simRow =>
        let sim_scores := simRow.enum
        let sorted := sortDescBy (fun x => x.2) sim_scores
        let chosen := (sorted.filter (fun x => x.1 ≠ movie_idx)).take limit
        let idxs := chosen.map (fun x => x.1)
        if idxs.all (fun i => i < df.movies.length) then
          idxs.map (fun i => df.movies.getD i dummyMovie)
        else []

/-- `get_similar_movies` (lines 102-110): improved method first, catalog
accessor fallback when it comes back empty. -/
def get_similar_movies (df : DF) (sim : Option (List (List ℚ)))
    (indices : List (Int × ℕ)) (movie_id : Int) (limit : ℕ) : List Movie :=
  let improved := get_similar_movies_improved df sim indices movie_id limit
  if ¬ improved.isEmpty then improved
  else getMovieRecommendations df movie_id limit

/-- A watchlist entry: a loosely-typed record whose `.get('id')` may be
missing. -/
structure WItem where
  id : Option Int
deriving DecidableEq, Repr

/-- The genres of the catalog row at index `idx`, as read by the hybrid
genre-diversity pass (empty when the cell is null). -/
def genresAt (df : DF) (idx : ℕ) : List String :=
  ((df.movies.getD idx dummyMovie).genres_list).getD []

/-- The genre-diversity greedy pass of `get_hybrid_recommendations`
(lines 340-352): walk the candidate indices in similarity-rank order, keep a
movie iff its genre set contributes at least one genre not yet seen, break
once `limit` movies are kept.  Row accesses are modelled with `getD`; the
caller guards index validity (an out-of-range `iloc` in the source aborts the
whole call via its `try/except`). -/
def noveltyGo (df : DF) (limit : ℕ) :
    List ℕ → List ℕ → List String → List ℕ
  | [], sel, _ => sel
  | idx :: rest, sel, seen =>
    match df.hasGenres, (df.movies.getD idx dummyMovie).genres_list with
    | true, some gs =>
      if gs.any (fun g => ¬ seen.contains g) then
        let sel' := sel ++ [idx]
        if limit ≤ sel'.length then sel'
        else noveltyGo df limit rest sel' (seen ++ gs)
      else noveltyGo df limit rest sel seen
    | _, _ => noveltyGo df limit rest sel seen

/-- The candidate pool of `get_hybrid_recommendations` (lines 324-333): all
movie indices paired with their profile similarity, sorted descending,
watchlist indices removed, truncated to `limit + 10`. -/
def hybridCandidates (userSim : List ℚ) (watchIdxs : List ℕ) (limit : ℕ) :
    List ℕ :=
  let sim_scores := userSim.enum
  let sorted := sortDescBy (fun x => x.2) sim_scores
  (((sorted.filter (fun x => ¬ watchIdxs.contains x.1)).take (limit + 10)).map
    (fun x => x.1))

/-- Selection of `get_hybrid_recommendations` (lines 335-357): genre-novelty
pass over the candidate pool, then fill from the remaining candidates in rank
order while short of `limit`. -/
def hybridSelect (df : DF) (limit : ℕ) (cands : List ℕ) : List ℕ :=
  let novel := noveltyGo df limit cands [] []
  if novel.length < limit then
    novel ++ (cands.filter (fun i => ¬ novel.contains i)).take
      (limit - novel.length)
  else novel

/-- `watchlist_ids` (line 305): ids of watchlist entries whose `.get('id')` is
truthy (`None` and `0` are falsy in Python). -/
def watchlistIds (watchlist : List WItem) : List Int :=
  watchlist.filterMap (fun w =>
    match w.id with
    | some i => if i ≠ 0 then some i else none
    | none => none)

/-- `valid_ids` (line 308): the watchlist ids known to the index map. -/
def validIds (indices : List (Int × ℕ)) (watchlist : List WItem) : List Int :=
  (watchlistIds watchlist).filter (fun i => (lookupIdx indices i).isSome)

/-- `watchlist_indices` (line 314): matrix rows of the valid watchlist ids. -/
def watchIdxsOf (indices : List (Int × ℕ)) (watchlist : List WItem) :
    List ℕ :=
  (validIds indices watchlist).filterMap (lookupIdx indices)

/-- `get_hybrid_recommendations` (lines 289-367).  The profile-vector cosine
similarity row (floating point in the source) is taken as a `ℚ`-valued input
`userSim`; everything downstream of it is embedded from the source.  The final
`df.iloc[selected_movies[:limit]]` raises (hence returns `[]` through the
`try/except`) when an index is out of range. -/
def get_hybrid_recommendations (df : DF) (simPresent : Bool)
    (indices : List (Int × ℕ)) (userSim : List ℚ) (watchlist : List WItem)
    (limit : ℕ) : List Movie :=
  if watchlist.isEmpty ∨ simPresent = false then [] else
  if (validIds indices watchlist).isEmpty then [] else
  let cands := hybridCandidates userSim (watchIdxsOf indices watchlist) limit
  let sel := (hybridSelect df limit cands).take limit
  if sel.all (fun i => i < df.movies.length) then
    sel.map (fun i => df.movies.getD i dummyMovie)
  else []

/-- Dot product of two count vectors (rows of the feature matrix). -/
def dotNN : List ℕ → List ℕ → ℕ
  | a :: as, b :: bs => a * b + dotNN as bs
  | _, _ => 0

/-- Cosine similarity of two count rows, as `sklearn`'s `cosine_similarity`
computes it (over the reals; a zero-norm row is treated as similarity `0`,
which Lean's division-by-zero convention gives directly). -/
noncomputable def cosineSim (a b : List ℕ) : ℝ :=
  (dotNN a b : ℝ) / (Real.sqrt (dotNN a a) * Real.sqrt (dotNN b b))

/-- Concrete catalog rows and frames used to instantiate the theorems on
explicit inputs. -/
def mvA : Movie :=
  ⟨1, "A", some ["Action"], none, none, none, 8, 100, 10⟩

def mvB : Movie :=
  ⟨2, "B", some ["Action"], none, none, none, 5, 100, 1⟩

/-- A row whose `genres_list` cell is null. -/
def mvNull : Movie :=
  ⟨3, "N", none, none, none, none, 0, 0, 0⟩

def mvX : Movie :=
  ⟨11, "X", some ["Sci-Fi"], none, none, none, 7, 60, 4⟩

def mvY : Movie :=
  ⟨12, "Y", some ["Drama"], none, none, none, 6, 60, 3⟩

/-- A fully populated row exercising all four feature families. -/
def mvFull : Movie :=
  ⟨21, "F", some ["Action", "Action", "Sci Fi"], some ["space war"],
    some ["Tom Hanks", "Bo Derek", "Cy Young", "Di Caprio"],
    some ("Ridley Scott"), 7, 80, 5⟩

/-- Vote columns present and spread: the rating-normalization branch fires. -/
def dfVotes : DF :=
  ⟨[mvA, mvB], true, false, false, false, true, true⟩

/-- No vote columns: with unmatched preferences every score is zero. -/
def dfNoVotes : DF :=
  ⟨[mvA, mvB], true, false, false, false, false, false⟩

/-- A catalog containing a null `genres_list` cell. -/
def dfNull : DF :=
  ⟨[mvNull], true, false, false, false, false, false⟩

def dfSingle : DF :=
  ⟨[mvA], true, false, false, false, true, true⟩

/-- A featureless row next to a featured one: its feature-matrix row is all
zeros. -/
def dfFeat : DF :=
  ⟨[mvNull, mvX], true, false, false, false, false, false⟩

def dfXY : DF :=
  ⟨[mvX, mvY], true, false, false, false, false, false⟩

def dfFull : DF :=
  ⟨[mvFull], true, true, true, true, true, true⟩

def prefsAction : Prefs :=
  ⟨["Action"], [], []⟩

def prefsZzz : Prefs :=
  ⟨["Zzz"], [], []⟩

/-- Decidable equality for `Except`, used to evaluate the embedded functions
on concrete inputs. -/
instance [DecidableEq ε] [DecidableEq α] : DecidableEq (Except ε α)
  | .error a, .error b =>
    if h : a = b then .isTrue (by rw [h]) else
      .isFalse (fun he => h (by injection he))
  | .error _, .ok _ => .isFalse (fun h => Except.noConfusion h)
  | .ok _, .error _ => .isFalse (fun h => Except.noConfusion h)
  | .ok a, .ok b =>
    if h : a = b then .isTrue (by rw [h]) else
      .isFalse (fun he => h (by injection he))

/-- Diversity: every position in the list of selected indices contributes a
genre absent from all earlier selections. -/
def divProp (df : DF) (sel : List ℕ) : Prop :=
  ∀ i, i < sel.length →
    ∃ g, g ∈ genresAt df (sel.getD i 0) ∧
      ∀ j, j < i → g ∉ genresAt df (sel.getD j 0)

-- ### Helper lemmas ###

theorem insertDesc_perm (key : α → ℚ) (x : α) (l : List α) :
    List.Perm (insertDesc key x l) (x :: l) := by
  induction l with
  | nil => rfl
  | cons y ys ih =>
      unfold insertDesc
      split
      · rfl
      · exact (List.Perm.cons y ih).trans (List.Perm.swap x y ys)

theorem sortDescBy_perm (key : α → ℚ) (l : List α) : List.Perm (sortDescBy key l) l := by
  induction l with
  | nil => rfl
  | cons x xs ih =>
      exact (insertDesc_perm key x (sortDescBy key xs)).trans (List.Perm.cons x ih)

theorem length_sortDescBy (key : α → ℚ) (l : List α) :
    (sortDescBy key l).length = l.length :=
  (sortDescBy_perm key l).length_eq

theorem mem_sortDescBy {key : α → ℚ} {l : List α} {x : α} :
    x ∈ sortDescBy key l ↔ x ∈ l :=
  (sortDescBy_perm key l).mem_iff

theorem nodup_sortDescBy {key : α → ℚ} {l : List α} (h : l.Nodup) :
    (sortDescBy key l).Nodup :=
  ((sortDescBy_perm key l).nodup_iff).mpr h

theorem mapE_ok_length {f : α → Except String β} {l : List α} {ys : List β}
    (h : mapE f l = .ok ys) : ys.length = l.length := by
  induction l generalizing ys with
  | nil => simp [mapE] at h; simp [← h]
  | cons x xs ih =>
      unfold mapE at h
      cases hfx : f x with
      | error e => rw [hfx] at h; exact absurd h (by simp)
      | ok y =>
          rw [hfx] at h
          cases hm : mapE f xs with
          | error e => rw [hm] at h; exact absurd h (by simp)
          | ok ys' =>
              rw [hm] at h
              cases h
              simpa using ih hm

theorem csStep {x y d A B : ℝ} (hy : 0 ≤ y) (hd : 0 ≤ d)
    (hA : 0 ≤ A) (hB : 0 ≤ B) (h : d ^ 2 ≤ A * B) :
    (x * y + d) ^ 2 ≤ (x * x + A) * (y * y + B) := by
  rcases eq_or_lt_of_le hB with hB0 | hBpos
  · have hd0 : d = 0 := by nlinarith [sq_nonneg d]
    rw [hd0, ← hB0]
    nlinarith [mul_nonneg hA (mul_nonneg hy hy)]
  · have key : 2 * (x * y * d) ≤ x ^ 2 * B + y ^ 2 * A := by
      nlinarith [sq_nonneg (x * B - y * d),
        mul_nonneg (sq_nonneg y) (sub_nonneg.mpr h)]
    nlinarith [key, h]

theorem dotNN_sq_le (a b : List ℕ) :
    (dotNN a b : ℝ) ^ 2 ≤ (dotNN a a : ℝ) * (dotNN b b : ℝ) := by
  induction a generalizing b with
  | nil => simp [dotNN]
  | cons x as ih =>
      cases b with
      | nil => simp [dotNN]
      | cons y bs =>
          have hd := ih bs
          simp only [dotNN]
          push_cast
          exact csStep (Nat.cast_nonneg y) (Nat.cast_nonneg _)
            (Nat.cast_nonneg _) (Nat.cast_nonneg _) hd

theorem dotNN_zero_left {a : List ℕ} (h : a.all (fun x => x = 0) = true) :
    ∀ b, dotNN a b = 0 := by
  induction a with
  | nil => intro b; cases b <;> simp [dotNN]
  | cons x as ih =>
      intro b
      simp only [List.all_cons, Bool.and_eq_true, decide_eq_true_eq] at h
      cases b with
      | nil => simp [dotNN]
      | cons y bs =>
          simp only [dotNN, h.1, Nat.zero_mul, Nat.zero_add]
          exact ih (by simpa using h.2) bs

theorem cosineSim_le_one (a b : List ℕ) : cosineSim a b ≤ 1 := by
  have hd0 : (0 : ℝ) ≤ (dotNN a b : ℝ) := Nat.cast_nonneg _
  have hA : (0 : ℝ) ≤ (dotNN a a : ℝ) := Nat.cast_nonneg _
  have hle : (dotNN a b : ℝ) ≤
      Real.sqrt (dotNN a a : ℝ) * Real.sqrt (dotNN b b : ℝ) := by
    rw [← Real.sqrt_mul hA]
    calc (dotNN a b : ℝ) = Real.sqrt ((dotNN a b : ℝ) ^ 2) :=
          (Real.sqrt_sq hd0).symm
      _ ≤ Real.sqrt ((dotNN a a : ℝ) * (dotNN b b : ℝ)) :=
          Real.sqrt_le_sqrt (dotNN_sq_le a b)
  exact div_le_one_of_le₀ hle
    (mul_nonneg (Real.sqrt_nonneg _) (Real.sqrt_nonneg _))

-- ### Claim theorems ###

/-- C9: for every pair of rows of the count-valued feature matrix, the cosine
similarity computed from them lies in `[0, 1]`, and a row whose feature vector
is all zeros has similarity exactly `0` with every other row — defined, not a
division error or NaN. -/
theorem claim_C9_similarity_bounds (df : DF) (r₁ r₂ : List ℕ)
    (h₁ : r₁ ∈ featureMatrixOf df) (h₂ : r₂ ∈ featureMatrixOf df) :
    (0 ≤ cosineSim r₁ r₂ ∧ cosineSim r₁ r₂ ≤ 1) ∧
      (r₁.all (fun x => x = 0) = true → cosineSim r₁ r₂ = 0) := by
  refine ⟨⟨?_, cosineSim_le_one r₁ r₂⟩, ?_⟩
  · exact div_nonneg (Nat.cast_nonneg _)
      (mul_nonneg (Real.sqrt_nonneg _) (Real.sqrt_nonneg _))
  · intro hz
    unfold cosineSim
    rw [dotNN_zero_left hz r₂]
    simp

/-- Witness for C9 on a concrete two-movie catalog: the featureless movie's
row `[0]` is all zeros, both rows belong to the computed feature matrix, and
the similarity facts follow by applying `claim_C9_similarity_bounds`. -/
theorem claim_C9_similarity_bounds_witness :
    (([0] ∈ featureMatrixOf dfFeat) ∧ ([3] ∈ featureMatrixOf dfFeat) ∧
      List.all [0] (fun x => x = 0) = true) ∧
    ((0 ≤ cosineSim [0] [3] ∧ cosineSim [0] [3] ≤ 1) ∧
      cosineSim [0] [3] = 0) :=
  ⟨⟨by decide, by decide, by decide⟩,
    (claim_C9_similarity_bounds dfFeat [0] [3] (by decide) (by decide)).1,
    (claim_C9_similarity_bounds dfFeat [0] [3] (by decide) (by decide)).2
      (by decide)⟩

/-- C1: the claim says no public facade method ever propagates an exception.
The code contradicts it: `get_personalized_recommendations` has no
`try/except`, and on a catalog with a null `genres_list` cell together with a
non-empty `favorite_genres` preference, the genre-scoring lambda
(`genre in x`, line 189) raises `TypeError`, which propagates to the caller.
This theorem evaluates the embedded method at that failing input. -/
theorem claim_C1_personalized_propagates :
    get_personalized_recommendations dfNull (some prefsAction) 10 =
      .error msgGenreNull := by
  with_unfolding_all decide

/-- C4: the claim says returned records carry no temporary scoring fields.
The code contradicts its own clean-up comment (lines 237-240): the created
columns are dropped from `df`, not from `recommended`, so the returned records
still carry `score` (and `genre_score` here).  This theorem evaluates the
embedded method at a concrete input and exhibits `score` among the columns
attached to the returned records. -/
theorem claim_C4_score_columns_leak :
    get_personalized_recommendations dfSingle (some prefsAction) 1 =
      .ok ([mvA], ["score", "genre_score"]) ∧
    "score" ∈ createdCols dfSingle prefsAction := by
  exact ⟨by with_unfolding_all decide, by with_unfolding_all decide⟩

/-- C2 (counterexample): on the two-movie catalog `dfVotes` with preferences
matching zero movies (every genre score is `.ok 0` and the director/actor
preference lists are empty), `personalized(prefs, 2)` returns only one movie:
rating normalization gives `mvA` a positive score, so the popularity padding
is requested for just one slot and is then entirely filtered away because the
most popular movie is `mvA` itself — fewer than `min(limit, catalogSize) = 2`
movies result. -/
theorem claim_C2_counterexample :
    (∀ m ∈ dfVotes.movies,
      genreCellScore prefsZzz.favorite_genres m.genres_list = .ok 0) ∧
    get_personalized_recommendations dfVotes (some prefsZzz) 2 =
      .ok ([mvA], ["score", "genre_score", "rating_norm"]) ∧
    ([mvA].length < min 2 dfVotes.movies.length) := by
  refine ⟨?_, ?_, ?_⟩
  · with_unfolding_all decide
  · with_unfolding_all decide
  · with_unfolding_all decide

theorem anyLowerCongr (g : String → Bool) {l l' : List String}
    (h : l.map String.toLower = l'.map String.toLower) :
    l.any (fun s => g s.toLower) = l'.any (fun s => g s.toLower) := by
  have h1 : (l.map String.toLower).any g = (l'.map String.toLower).any g := by
    rw [h]
  simpa [List.any_map, Function.comp] using h1

theorem countPLowerCongr (g : String → Bool) {l l' : List String}
    (h : l.map String.toLower = l'.map String.toLower) :
    l.countP (fun s => g s.toLower) = l'.countP (fun s => g s.toLower) := by
  have h1 : (l.map String.toLower).countP g =
      (l'.map String.toLower).countP g := by
    rw [h]
  simpa [List.countP_map, Function.comp] using h1

/-- C3 (amended): director substring matching and actor matching in the
personalized scorer are case-insensitive — both scores are unchanged when the
case of any preference string or catalog field is altered.  Genre matching,
by contrast, is exact case-sensitive membership (see the counterexample), so
the claim holds only for the director and actor components. -/
theorem claim_C3_caseInsensitive_director_actor
    (dFavs dFavs' aFavs aFavs' cs cs' : List String) (d d' : String)
    (hdf : dFavs.map String.toLower = dFavs'.map String.toLower)
    (hd : d.toLower = d'.toLower)
    (haf : aFavs.map String.toLower = aFavs'.map String.toLower)
    (hc : cs.map String.toLower = cs'.map String.toLower) :
    directorCellScore dFavs (some d) = directorCellScore dFavs' (some d') ∧
    actorCellScore aFavs (some cs) = actorCellScore aFavs' (some cs') := by
  constructor
  · have h1 : dFavs.any (fun f => strIn f.toLower d.toLower) =
        dFavs'.any (fun f => strIn f.toLower d'.toLower) := by
      rw [show (fun f : String => strIn f.toLower d.toLower) =
          (fun f : String => strIn f.toLower d'.toLower) from by
        funext f; rw [hd]]
      exact anyLowerCongr (fun fl => strIn fl d'.toLower) hdf
    simp only [directorCellScore, h1]
  · have h2 : (fun a : String => cs.any (fun c => strIn a.toLower c.toLower)) =
        (fun a : String => cs'.any (fun c => strIn a.toLower c.toLower)) := by
      funext a
      exact anyLowerCongr (fun cl => strIn a.toLower cl) hc
    have h3 : aFavs.countP
        (fun a => cs'.any (fun c => strIn a.toLower c.toLower)) =
        aFavs'.countP
        (fun a => cs'.any (fun c => strIn a.toLower c.toLower)) :=
      countPLowerCongr (fun al => cs'.any (fun c => strIn al c.toLower)) haf
    simp only [actorCellScore, h2, h3]

/-- Witness for C3 (amended) on concrete case-variant inputs. -/
theorem claim_C3_caseInsensitive_director_actor_witness :
    ((["NOLAN"] : List String).map String.toLower =
        (["nolan"] : List String).map String.toLower ∧
      ("Christopher Nolan" : String).toLower =
        ("CHRISTOPHER NOLAN" : String).toLower ∧
      (["TOM"] : List String).map String.toLower =
        (["tom"] : List String).map String.toLower ∧
      (["Tom Hanks"] : List String).map String.toLower =
        (["TOM HANKS"] : List String).map String.toLower) ∧
    directorCellScore ["NOLAN"] (some ("Christopher Nolan")) =
      directorCellScore ["nolan"] (some ("CHRISTOPHER NOLAN")) ∧
    actorCellScore ["TOM"] (some (["Tom Hanks"])) =
      actorCellScore ["tom"] (some (["TOM HANKS"])) :=
  ⟨⟨by with_unfolding_all decide, by with_unfolding_all decide,
    by with_unfolding_all decide, by with_unfolding_all decide⟩,
   claim_C3_caseInsensitive_director_actor ["NOLAN"] ["nolan"] ["TOM"] ["tom"]
     ["Tom Hanks"] ["TOM HANKS"] ("Christopher Nolan") ("CHRISTOPHER NOLAN")
     (by with_unfolding_all decide) (by with_unfolding_all decide)
     (by with_unfolding_all decide) (by with_unfolding_all decide)⟩

/-- C3 (counterexample): genre matching in the personalized scorer is exact,
case-sensitive list membership (`genre in x`, line 189): the case-variant
preferences `["action"]` and `["Action"]` produce different genre-match counts
against the catalog field `["Action"]`, refuting the claim that all three
preference matches are case-insensitive. -/
theorem claim_C3_genre_caseSensitive_counterexample :
    genreCellScore ["action"] (some ["Action"]) = .ok 0 ∧
    genreCellScore ["Action"] (some ["Action"]) = .ok 1 ∧
    (["action"] : List String).map String.toLower =
      (["Action"] : List String).map String.toLower := by
  refine ⟨by decide, by decide, by with_unfolding_all decide⟩

theorem buildIndices_map_fst (df : DF) :
    (buildIndices df).map (fun p => p.1) = df.movies.map (fun m => m.id) := by
  unfold buildIndices
  rw [List.map_map]
  have he : ((fun p : Int × ℕ => p.1) ∘ fun p : ℕ × Movie => (p.2.id, p.1)) =
      (fun m : Movie => m.id) ∘ Prod.snd := rfl
  rw [he, ← List.map_map, List.enum_map_snd]

theorem lookup_none_not_mem {df : DF} {mid : Int}
    (h : lookupIdx (buildIndices df) mid = none) :
    ∀ m ∈ df.movies, m.id ≠ mid := by
  intro m hm he
  unfold lookupIdx at h
  have hf := Option.map_eq_none'.mp h
  rw [List.find?_eq_none] at hf
  have hid : m.id ∈ (buildIndices df).map (fun p => p.1) := by
    rw [buildIndices_map_fst]
    exact List.mem_map_of_mem _ hm
  obtain ⟨p, hp, hpe⟩ := List.mem_map.mp hid
  exact hf p (List.mem_reverse.mpr hp) (by simp [hpe, he])

theorem lookup_some_spec {df : DF} {mid : Int} {idx : ℕ}
    (h : lookupIdx (buildIndices df) mid = some idx) :
    idx < df.movies.length ∧ (df.movies.getD idx dummyMovie).id = mid := by
  unfold lookupIdx at h
  obtain ⟨p, hp, hpe⟩ := Option.map_eq_some'.mp h
  have hpred := List.find?_some hp
  have hmem := List.mem_of_find?_eq_some hp
  rw [List.mem_reverse] at hmem
  unfold buildIndices at hmem
  obtain ⟨⟨i, m⟩, hq, hqe⟩ := List.mem_map.mp hmem
  have hget : df.movies[i]? = some m := List.mk_mem_enum_iff_getElem?.mp hq
  obtain ⟨hlt, hgeq⟩ := List.getElem?_eq_some_iff.mp hget
  have hpi : p.1 = m.id := by rw [← hqe]
  have hp2 : p.2 = i := by rw [← hqe]
  have hmid : m.id = mid := by
    have := of_decide_eq_true hpred
    rw [← hpi]; exact this
  subst hpe
  rw [hp2]
  refine ⟨hlt, ?_⟩
  rw [List.getD_eq_getElem _ _ hlt, hgeq, hmid]

/-- C6: for every id not present in the MovieIndexMap built from the catalog,
`similarTo(unknownId, limit)` returns an empty list and raises no exception:
the matrix-based method returns `[]` at its unknown-id guard, and the
catalog-accessor fallback (spec-modelled `getMovieRecommendations`) also
returns `[]` for an id absent from the catalog. -/
theorem claim_C6_graceful_unknown_id (df : DF) (sim : Option (List (List ℚ)))
    (movie_id : Int) (limit : ℕ)
    (h : lookupIdx (buildIndices df) movie_id = none) :
    get_similar_movies df sim (buildIndices df) movie_id limit = [] := by
  have himp : get_similar_movies_improved df sim (buildIndices df) movie_id
      limit = [] := by
    unfold get_similar_movies_improved
    cases sim with
    | none => rfl
    | some s =>
        simp only [h]
        split <;> rfl
  unfold get_similar_movies
  rw [himp]
  simp only [List.isEmpty_nil, not_true, if_false]
  unfold getMovieRecommendations
  rw [if_neg]
  intro hany
  rw [List.any_eq_true] at hany
  obtain ⟨m, hm, hme⟩ := hany
  exact lookup_none_not_mem h m hm (of_decide_eq_true hme)

/-- C7: for every movie id present in the MovieIndexMap (with catalog ids
unique, as the spec's data model requires) and every limit and similarity
matrix, the matrix-based `similarTo(id, limit)` never returns the movie with
that id: row `movie_idx` is filtered out before records are materialized. -/
theorem claim_C7_self_exclusion (df : DF) (sim : Option (List (List ℚ)))
    (movie_id : Int) (limit : ℕ) (movie_idx : ℕ)
    (hnd : (df.movies.map (fun m => m.id)).Nodup)
    (hl : lookupIdx (buildIndices df) movie_id = some movie_idx) :
    ∀ m ∈ get_similar_movies_improved df sim (buildIndices df) movie_id limit,
      m.id ≠ movie_id := by
  intro m hm
  obtain ⟨hmlt, hmid⟩ := lookup_some_spec hl
  unfold get_similar_movies_improved at hm
  cases sim with
  | none => simp at hm
  | some s =>
      simp only [hl] at hm
      by_cases hemp : (buildIndices df).isEmpty
      · simp [hemp] at hm
      · rw [if_neg hemp] at hm
        cases hrow : s.get? movie_idx with
        | none => rw [hrow] at hm; simp at hm
        | some simRow =>
            rw [hrow] at hm
            simp only [] at hm
            split at hm
            next hall =>
              obtain ⟨i, hi, hieq⟩ := List.mem_map.mp hm
              obtain ⟨x, hx, hxe⟩ := List.mem_map.mp hi
              have hxf := List.mem_of_mem_take hx
              have hne : x.1 ≠ movie_idx := by
                have := (List.mem_filter.mp hxf).2
                simpa using this
              have hilt : i < df.movies.length := by
                have := List.all_eq_true.mp hall i hi
                simpa using this
              intro heq
              apply hne
              rw [hxe]
              have hIdEq : (df.movies.map (fun m => m.id)).get
                  ⟨i, by simpa using hilt⟩ =
                  (df.movies.map (fun m => m.id)).get
                  ⟨movie_idx, by simpa using hmlt⟩ := by
                simp only [List.get_eq_getElem, List.getElem_map]
                rw [← List.getD_eq_getElem df.movies dummyMovie hilt,
                  ← List.getD_eq_getElem df.movies dummyMovie hmlt]
                rw [← hieq] at heq
                rw [heq, hmid]
              exact congrArg Fin.val ((List.Nodup.get_inj_iff hnd).mp hIdEq)
            next => exact absurd hm (by simp)

/-- Witness for C6: id `5` is not in the index map of the concrete two-movie
catalog, and the composed lookup returns `[]`. -/
theorem claim_C6_graceful_unknown_id_witness :
    lookupIdx (buildIndices dfNoVotes) 5 = none ∧
    get_similar_movies dfNoVotes (some [[1, 0], [0, 1]])
      (buildIndices dfNoVotes) 5 10 = [] :=
  ⟨by decide, claim_C6_graceful_unknown_id dfNoVotes (some [[1, 0], [0, 1]])
    5 10 (by decide)⟩

/-- Witness for C7: id `1` maps to row `0` of the concrete catalog, whose ids
are distinct, and the returned records exclude it. -/
theorem claim_C7_self_exclusion_witness :
    ((dfNoVotes.movies.map (fun m => m.id)).Nodup ∧
      lookupIdx (buildIndices dfNoVotes) 1 = some 0) ∧
    ∀ m ∈ get_similar_movies_improved dfNoVotes (some [[1, 0], [0, 1]])
        (buildIndices dfNoVotes) 1 10, m.id ≠ 1 :=
  ⟨⟨by decide, by decide⟩,
    claim_C7_self_exclusion dfNoVotes (some [[1, 0], [0, 1]]) 1 10 0
      (by decide) (by decide)⟩

theorem append_beq_append (p a b : String) : ((p ++ a) == (p ++ b)) = (a == b) := by
  rw [Bool.eq_iff_iff]
  simp only [beq_iff_eq]
  constructor
  · intro h
    exact String.ext (List.append_cancel_left (congrArg String.data h))
  · intro h
    rw [h]

theorem count_eq_zero_of_head {l : List String} {c : Char}
    (hl : ∀ t ∈ l, t.data.head? = some c) {tok : String} {c' : Char}
    (htok : tok.data.head? = some c') (hne : c ≠ c') : l.count tok = 0 := by
  rw [List.count_eq_zero]
  intro hmem
  apply hne
  have h1 := hl tok hmem
  rw [htok] at h1
  exact (Option.some.inj h1).symm

theorem genreTokens_head (df : DF) (m : Movie) :
    ∀ t ∈ genreTokens df m, t.data.head? = some 'g' := by
  intro t ht
  unfold genreTokens at ht
  split at ht
  · split at ht
    · simp only [List.mem_append, List.mem_map] at ht
      rcases ht with ((⟨g, _, he⟩ | ⟨g, _, he⟩) | ⟨g, _, he⟩) <;> rw [← he] <;> rfl
    · simp at ht
  · simp at ht

theorem kwTokens_head (df : DF) (m : Movie) :
    ∀ t ∈ kwTokens df m, t.data.head? = some 'k' := by
  intro t ht
  unfold kwTokens at ht
  split at ht
  · split at ht
    · simp only [List.mem_map] at ht
      obtain ⟨k, _, he⟩ := ht
      rw [← he]; rfl
    · simp at ht
  · simp at ht

theorem castTokens_head (df : DF) (m : Movie) :
    ∀ t ∈ castTokens df m, t.data.head? = some 'a' := by
  intro t ht
  unfold castTokens at ht
  split at ht
  · split at ht
    · simp only [List.mem_append, List.mem_map] at ht
      rcases ht with (⟨a, _, he⟩ | ⟨a, _, he⟩) <;> rw [← he] <;> rfl
    · simp at ht
  · simp at ht

theorem directorTokens_head (df : DF) (m : Movie) :
    ∀ t ∈ directorTokens df m, t.data.head? = some 'd' := by
  intro t ht
  unfold directorTokens at ht
  split at ht
  · split at ht
    · split at ht
      · rw [List.eq_of_mem_replicate ht]; rfl
      · simp at ht
    · simp at ht
  · simp at ht

theorem count_featureTokens_genre (df : DF) (m : Movie) (x : String) :
    (featureTokens df m).count ("genre_" ++ x) =
      (genreTokens df m).count ("genre_" ++ x) := by
  unfold featureTokens
  simp only [List.count_append]
  rw [count_eq_zero_of_head (kwTokens_head df m)
      (show (("genre_" ++ x) : String).data.head? = some 'g' from rfl)
      (by decide),
    count_eq_zero_of_head (castTokens_head df m)
      (show (("genre_" ++ x) : String).data.head? = some 'g' from rfl)
      (by decide),
    count_eq_zero_of_head (directorTokens_head df m)
      (show (("genre_" ++ x) : String).data.head? = some 'g' from rfl)
      (by decide)]
  omega

theorem count_featureTokens_kw (df : DF) (m : Movie) (x : String) :
    (featureTokens df m).count ("kw_" ++ x) =
      (kwTokens df m).count ("kw_" ++ x) := by
  unfold featureTokens
  simp only [List.count_append]
  rw [count_eq_zero_of_head (genreTokens_head df m)
      (show (("kw_" ++ x) : String).data.head? = some 'k' from rfl) (by decide),
    count_eq_zero_of_head (castTokens_head df m)
      (show (("kw_" ++ x) : String).data.head? = some 'k' from rfl) (by decide),
    count_eq_zero_of_head (directorTokens_head df m)
      (show (("kw_" ++ x) : String).data.head? = some 'k' from rfl) (by decide)]
  omega

theorem count_featureTokens_actor (df : DF) (m : Movie) (x : String) :
    (featureTokens df m).count ("actor_" ++ x) =
      (castTokens df m).count ("actor_" ++ x) := by
  unfold featureTokens
  simp only [List.count_append]
  rw [count_eq_zero_of_head (genreTokens_head df m)
      (show (("actor_" ++ x) : String).data.head? = some 'a' from rfl)
      (by decide),
    count_eq_zero_of_head (kwTokens_head df m)
      (show (("actor_" ++ x) : String).data.head? = some 'a' from rfl)
      (by decide),
    count_eq_zero_of_head (directorTokens_head df m)
      (show (("actor_" ++ x) : String).data.head? = some 'a' from rfl)
      (by decide)]
  omega

theorem count_featureTokens_director (df : DF) (m : Movie) (x : String) :
    (featureTokens df m).count ("director_" ++ x) =
      (directorTokens df m).count ("director_" ++ x) := by
  unfold featureTokens
  simp only [List.count_append]
  rw [count_eq_zero_of_head (genreTokens_head df m)
      (show (("director_" ++ x) : String).data.head? = some 'd' from rfl)
      (by decide),
    count_eq_zero_of_head (kwTokens_head df m)
      (show (("director_" ++ x) : String).data.head? = some 'd' from rfl)
      (by decide),
    count_eq_zero_of_head (castTokens_head df m)
      (show (("director_" ++ x) : String).data.head? = some 'd' from rfl)
      (by decide)]
  omega

theorem count_map_prefixed (l : List String) (p x : String)
    (f : String → String) :
    (l.map (fun s => p ++ f s)).count (p ++ x) =
      l.countP (fun s => f s == x) := by
  rw [List.count_eq_countP, List.countP_map]
  have he : ((fun a => a == p ++ x) ∘ fun s => p ++ f s) =
      (fun s => f s == x) := by
    funext s
    exact append_beq_append p (f s) x
  rw [he]

/-- C8: feature weighting of the builder — for every movie the token
multiset counts each `genre_<name>` exactly 3 per occurrence, each
`kw_<name>` once, each `actor_<name>` twice counting only the first three
billed cast members, and the single `director_<name>` token three times
(names normalized by `normToken`: lower-cased, spaces to underscores), and a
family whose catalog column is absent contributes no tokens at all. -/
theorem claim_C8_feature_weighting (df : DF) (m : Movie) (x : String) :
    (∀ gs, df.hasGenres = true → m.genres_list = some gs →
      (featureTokens df m).count ("genre_" ++ x) =
        3 * gs.countP (fun g => normToken g == x)) ∧
    (df.hasGenres = false → (featureTokens df m).count ("genre_" ++ x) = 0) ∧
    (∀ ks, df.hasKeywords = true → m.keywords_list = some ks →
      (featureTokens df m).count ("kw_" ++ x) =
        ks.countP (fun k => normToken k == x)) ∧
    (df.hasKeywords = false → (featureTokens df m).count ("kw_" ++ x) = 0) ∧
    (∀ cs, df.hasCast = true → m.cast_list = some cs →
      (featureTokens df m).count ("actor_" ++ x) =
        2 * (cs.take 3).countP (fun a => normToken a == x)) ∧
    (df.hasCast = false → (featureTokens df m).count ("actor_" ++ x) = 0) ∧
    (∀ d, df.hasDirector = true → m.director = some d → d ≠ "" →
      (featureTokens df m).count ("director_" ++ x) =
        3 * (if normToken d == x then 1 else 0)) ∧
    (df.hasDirector = false →
      (featureTokens df m).count ("director_" ++ x) = 0) := by
  refine ⟨?_, ?_, ?_, ?_, ?_, ?_, ?_, ?_⟩
  · intro gs hf hc
    rw [count_featureTokens_genre]
    simp only [genreTokens, hf, hc, if_true, List.count_append,
      count_map_prefixed]
    omega
  · intro hf
    rw [count_featureTokens_genre]
    simp [genreTokens, hf]
  · intro ks hf hc
    rw [count_featureTokens_kw]
    simp only [kwTokens, hf, hc, if_true, count_map_prefixed]
  · intro hf
    rw [count_featureTokens_kw]
    simp [kwTokens, hf]
  · intro cs hf hc
    rw [count_featureTokens_actor]
    simp only [castTokens, hf, hc, if_true, List.count_append,
      count_map_prefixed]
    omega
  · intro hf
    rw [count_featureTokens_actor]
    simp [castTokens, hf]
  · intro d hf hc hne
    rw [count_featureTokens_director]
    simp only [directorTokens, hf, hc, if_true, hne, ne_eq,
      not_false_eq_true, List.count_replicate]
    rw [append_beq_append]
    split <;> simp
  · intro hf
    rw [count_featureTokens_director]
    simp [directorTokens, hf]

/-- Witness for C8 on the fully populated fixture row: the genre token
`genre_action` is counted 6 times (two occurrences × 3) and the director
token three times. -/
theorem claim_C8_feature_weighting_witness :
    (dfFull.hasGenres = true ∧
      mvFull.genres_list = some ["Action", "Action", "Sci Fi"] ∧
      dfFull.hasDirector = true ∧ mvFull.director = some ("Ridley Scott") ∧
      ("Ridley Scott" : String) ≠ "") ∧
    (featureTokens dfFull mvFull).count ("genre_" ++ "action") =
      3 * (["Action", "Action", "Sci Fi"].countP
        (fun g => normToken g == "action")) ∧
    (featureTokens dfFull mvFull).count ("director_" ++ "ridley_scott") =
      3 * (if normToken ("Ridley Scott") == "ridley_scott" then 1 else 0) :=
  ⟨⟨rfl, rfl, rfl, rfl, by decide⟩,
    (claim_C8_feature_weighting dfFull mvFull "action").1 _ rfl rfl,
    (claim_C8_feature_weighting dfFull mvFull
      "ridley_scott").2.2.2.2.2.2.1 _ rfl rfl (by decide)⟩

theorem noveltyGo_div (df : DF) (limit : ℕ) :
    ∀ cands sel seen, divProp df sel →
      (∀ j, j < sel.length → ∀ g ∈ genresAt df (sel.getD j 0), g ∈ seen) →
      divProp df (noveltyGo df limit cands sel seen) := by
  intro cands
  induction cands with
  | nil => intro sel seen hdiv _; simpa [noveltyGo] using hdiv
  | cons idx rest ih =>
      intro sel seen hdiv hseen
      rw [noveltyGo]
      cases hg : df.hasGenres with
      | false => exact ih sel seen hdiv hseen
      | true =>
          cases hc : (df.movies.getD idx dummyMovie).genres_list with
          | none => exact ih sel seen hdiv hseen
          | some gs =>
              by_cases hnov : gs.any (fun g => ¬ seen.contains g)
              · simp only [hnov, if_true]
                obtain ⟨g0, hg0m, hg0n⟩ := List.any_eq_true.mp hnov
                have hg0 : g0 ∉ seen := by simpa using hg0n
                have hdiv' : divProp df (sel ++ [idx]) := by
                  intro i hi
                  rw [List.length_append, List.length_singleton] at hi
                  rcases Nat.lt_succ_iff_lt_or_eq.mp hi with hlt | heq
                  · obtain ⟨g, hgm, hgj⟩ := hdiv i hlt
                    refine ⟨g, ?_, ?_⟩
                    · rwa [List.getD_append _ _ _ _ hlt]
                    · intro j hj
                      rw [List.getD_append _ _ _ _ (hj.trans hlt)]
                      exact hgj j hj
                  · subst heq
                    refine ⟨g0, ?_, ?_⟩
                    · rw [List.getD_append_right _ _ _ _ (le_refl _),
                        Nat.sub_self]
                      show g0 ∈ genresAt df (([idx] : List ℕ).getD 0 0)
                      unfold genresAt
                      rw [show ([idx] : List ℕ).getD 0 0 = idx from rfl, hc]
                      simpa using hg0m
                    · intro j hj
                      rw [List.getD_append _ _ _ _ hj]
                      intro hgin
                      exact hg0 (hseen j hj g0 hgin)
                have hseen' : ∀ j, j < (sel ++ [idx]).length →
                    ∀ g ∈ genresAt df ((sel ++ [idx]).getD j 0),
                      g ∈ seen ++ gs := by
                  intro j hj g hgin
                  rw [List.length_append, List.length_singleton] at hj
                  rcases Nat.lt_succ_iff_lt_or_eq.mp hj with hlt | heq
                  · rw [List.getD_append _ _ _ _ hlt] at hgin
                    exact List.mem_append_left _ (hseen j hlt g hgin)
                  · subst heq
                    rw [List.getD_append_right _ _ _ _ (le_refl _),
                      Nat.sub_self] at hgin
                    unfold genresAt at hgin
                    rw [show ([idx] : List ℕ).getD 0 0 = idx from rfl, hc]
                      at hgin
                    exact List.mem_append_right _ (by simpa using hgin)
                by_cases hstop : limit ≤ sel.length + 1
                · simpa [hstop] using hdiv'
                · simp only [List.length_append, List.length_singleton,
                    hstop, if_false]
                  exact ih (sel ++ [idx]) (seen ++ gs) hdiv' hseen'
              · simp only [hnov, if_false]
                exact ih sel seen hdiv hseen

/-- C5: in the hybrid strategy, every movie selected during the genre-novelty
pass over the similarity-ranked candidate pool contributes at least one genre
absent from the union of the genres of the movies selected before it (fill-in
movies appended afterwards are exempt by construction, since they are not part
of `noveltyGo`'s output being quantified here). -/
theorem claim_C5_hybrid_genre_diversity (df : DF) (userSim : List ℚ)
    (watchIdxs : List ℕ) (limit : ℕ) (i : ℕ)
    (hi : i < (noveltyGo df limit (hybridCandidates userSim watchIdxs limit)
      [] []).length) :
    ∃ g, g ∈ genresAt df ((noveltyGo df limit
        (hybridCandidates userSim watchIdxs limit) [] []).getD i 0) ∧
      ∀ j, j < i → g ∉ genresAt df ((noveltyGo df limit
        (hybridCandidates userSim watchIdxs limit) [] []).getD j 0) :=
  noveltyGo_div df limit (hybridCandidates userSim watchIdxs limit) [] []
    (fun i hi => absurd hi (Nat.not_lt_zero i))
    (fun j hj => absurd hj (Nat.not_lt_zero j)) i hi

/-- Witness for C5: on the concrete two-genre catalog the novelty pass keeps
both movies and the second one contributes the new genre `Drama`. -/
theorem claim_C5_hybrid_genre_diversity_witness :
    1 < (noveltyGo dfXY 5 (hybridCandidates [1, 0] [] 5) [] []).length ∧
    ∃ g, g ∈ genresAt dfXY ((noveltyGo dfXY 5
        (hybridCandidates [1, 0] [] 5) [] []).getD 1 0) ∧
      ∀ j, j < 1 → g ∉ genresAt dfXY ((noveltyGo dfXY 5
        (hybridCandidates [1, 0] [] 5) [] []).getD j 0) :=
  ⟨by decide, claim_C5_hybrid_genre_diversity dfXY [1, 0] [] 5 1 (by decide)⟩

theorem mem_hybridCandidates_lt {userSim : List ℚ} {w : List ℕ} {limit i : ℕ}
    (h : i ∈ hybridCandidates userSim w limit) : i < userSim.length := by
  unfold hybridCandidates at h
  obtain ⟨x, hx, hxe⟩ := List.mem_map.mp h
  have hx1 := List.mem_of_mem_take hx
  have hx2 := (List.mem_filter.mp hx1).1
  have hx3 := mem_sortDescBy.mp hx2
  have := List.mem_enum_iff_getElem?.mp hx3
  rw [← hxe]
  exact (List.getElem?_eq_some_iff.mp this).1

theorem nodup_hybridCandidates (userSim : List ℚ) (w : List ℕ) (limit : ℕ) :
    (hybridCandidates userSim w limit).Nodup := by
  have henum : userSim.enum.Nodup := by
    apply List.Nodup.of_map Prod.fst
    rw [List.enum_map_fst]
    exact List.nodup_range _
  have hsorted := @nodup_sortDescBy (ℕ × ℚ) (fun x => x.2) _ henum
  unfold hybridCandidates
  refine List.Nodup.map_on ?_ ((hsorted.filter _).sublist
    (List.take_sublist _ _))
  intro x hx y hy hxy
  have hx' := mem_sortDescBy.mp
    ((List.mem_filter.mp (List.mem_of_mem_take hx)).1)
  have hy' := mem_sortDescBy.mp
    ((List.mem_filter.mp (List.mem_of_mem_take hy)).1)
  have hxg := List.mem_enum_iff_getElem?.mp hx'
  have hyg := List.mem_enum_iff_getElem?.mp hy'
  rw [hxy] at hxg
  rw [hxg] at hyg
  exact Prod.ext hxy (Option.some.inj hyg)

theorem noveltyGo_shape (df : DF) (limit : ℕ) :
    ∀ cands sel seen, ∃ t, noveltyGo df limit cands sel seen = sel ++ t ∧
      List.Sublist t cands := by
  intro cands
  induction cands with
  | nil => intro sel seen; exact ⟨[], by simp [noveltyGo], List.Sublist.refl _⟩
  | cons idx rest ih =>
      intro sel seen
      rw [noveltyGo]
      cases hg : df.hasGenres with
      | false =>
          obtain ⟨t, he, hs⟩ := ih sel seen
          exact ⟨t, he, hs.trans (List.sublist_cons_self idx rest)⟩
      | true =>
          cases hc : (df.movies.getD idx dummyMovie).genres_list with
          | none =>
              obtain ⟨t, he, hs⟩ := ih sel seen
              exact ⟨t, he, hs.trans (List.sublist_cons_self idx rest)⟩
          | some gs =>
              by_cases hnov : gs.any (fun g => ¬ seen.contains g)
              · simp only [hnov, if_true]
                by_cases hstop : limit ≤ sel.length + 1
                · refine ⟨[idx], ?_, ?_⟩
                  · simp [hstop]
                  · exact (List.singleton_sublist.mpr (List.mem_cons_self _ _))
                · simp only [List.length_append, List.length_singleton,
                    hstop, if_false]
                  obtain ⟨t, he, hs⟩ := ih (sel ++ [idx]) (seen ++ gs)
                  refine ⟨idx :: t, ?_, ?_⟩
                  · rw [he, List.append_assoc]
                    rfl
                  · exact List.Sublist.cons₂ idx hs
              · simp only [hnov, if_false]
                obtain ⟨t, he, hs⟩ := ih sel seen
                exact ⟨t, he, hs.trans (List.sublist_cons_self idx rest)⟩

theorem novel_sublist (df : DF) (limit : ℕ) (cands : List ℕ) :
    List.Sublist (noveltyGo df limit cands [] []) cands := by
  obtain ⟨t, he, hs⟩ := noveltyGo_shape df limit cands [] []
  rw [he]
  simpa using hs

theorem length_filter_not_contains :
    ∀ {l₁ l₂ : List ℕ}, List.Sublist l₁ l₂ → l₂.Nodup →
      (l₂.filter (fun i => ¬ l₁.contains i)).length =
        l₂.length - l₁.length := by
  intro l₁ l₂ hs
  induction hs with
  | slnil => intro _; simp
  | cons y hs ih =>
      rename_i l1 l2
      intro hn
      have hyn : y ∉ l2 := (List.nodup_cons.mp hn).1
      have hn' := (List.nodup_cons.mp hn).2
      have hyl : y ∉ l1 := fun hmem => hyn (hs.subset hmem)
      rw [List.filter_cons]
      have hny : decide (¬ l1.contains y = true) = true := by
        simpa using hyl
      simp only [hny, if_true, List.length_cons]
      rw [ih hn']
      have := hs.length_le
      omega
  | cons₂ x hs ih =>
      rename_i l1 l2
      intro hn
      have hxn : x ∉ l2 := (List.nodup_cons.mp hn).1
      have hn' := (List.nodup_cons.mp hn).2
      rw [List.filter_cons]
      have hcx : decide (¬ (x :: l1).contains x = true) = false := by
        simp
      simp only [hcx, Bool.false_eq_true, if_false]
      have hcong : ∀ i ∈ l2,
          (decide (¬ (x :: l1).contains i = true)) =
            (decide (¬ l1.contains i = true)) := by
        intro i hi
        have hix : i ≠ x := fun he => hxn (he ▸ hi)
        simp [hix]
      rw [List.filter_congr hcong]
      rw [ih hn']
      simp

theorem mem_hybridSelect {df : DF} {limit : ℕ} {cands : List ℕ} {i : ℕ}
    (h : i ∈ hybridSelect df limit cands) : i ∈ cands := by
  simp only [hybridSelect] at h
  split at h
  · rcases List.mem_append.mp h with h1 | h2
    · exact (novel_sublist df limit cands).subset h1
    · exact (List.mem_filter.mp (List.mem_of_mem_take h2)).1
  · exact (novel_sublist df limit cands).subset h

theorem length_hybridSelect_ge {df : DF} {limit : ℕ} {cands : List ℕ}
    (hn : cands.Nodup) (hc : limit ≤ cands.length) :
    limit ≤ (hybridSelect df limit cands).length := by
  simp only [hybridSelect]
  have hsub := novel_sublist df limit cands
  have hle := hsub.length_le
  split
  next h =>
    rw [List.length_append, List.length_take,
      length_filter_not_contains hsub hn]
    omega
  next h => omega

/-- C10: the hybrid strategy draws only from the `limit + 10` highest-ranked
non-watchlist candidates — every returned record is the catalog row of some
index in `hybridCandidates` — and whenever at least `limit` candidates exist
the output contains exactly `limit` movies.  Hypotheses: non-empty watchlist
with at least one id known to the index map, similarity available, and the
similarity row as long as the catalog (true of the cosine row computed against
the feature matrix). -/
theorem claim_C10_bounded_candidate_pool (df : DF) (indices : List (Int × ℕ))
    (userSim : List ℚ) (watchlist : List WItem) (limit : ℕ)
    (hw : watchlist ≠ []) (hv : validIds indices watchlist ≠ [])
    (hlen : userSim.length = df.movies.length) :
    (∀ m ∈ get_hybrid_recommendations df true indices userSim watchlist limit,
      ∃ i ∈ hybridCandidates userSim (watchIdxsOf indices watchlist) limit,
        m = df.movies.getD i dummyMovie) ∧
    (limit ≤ (hybridCandidates userSim (watchIdxsOf indices watchlist)
        limit).length →
      (get_hybrid_recommendations df true indices userSim watchlist
        limit).length = limit) := by
  have hout : get_hybrid_recommendations df true indices userSim watchlist
      limit =
      ((hybridSelect df limit (hybridCandidates userSim
        (watchIdxsOf indices watchlist) limit)).take limit).map
        (fun i => df.movies.getD i dummyMovie) := by
    simp only [get_hybrid_recommendations]
    rw [if_neg (by simp [hw]), if_neg (by simp [hv])]
    rw [if_pos]
    apply List.all_eq_true.mpr
    intro i hi
    have hlt := mem_hybridCandidates_lt
      (mem_hybridSelect (List.mem_of_mem_take hi))
    simpa [hlen] using hlt
  constructor
  · intro m hm
    rw [hout] at hm
    obtain ⟨i, hi, hie⟩ := List.mem_map.mp hm
    exact ⟨i, mem_hybridSelect (List.mem_of_mem_take hi), hie.symm⟩
  · intro hc
    rw [hout, List.length_map, List.length_take]
    have := @length_hybridSelect_ge df limit
      (hybridCandidates userSim (watchIdxsOf indices watchlist) limit)
      (nodup_hybridCandidates userSim (watchIdxsOf indices watchlist) limit)
      hc
    omega

/-- Witness for C10 on a concrete two-movie catalog with movie `11` in the
watchlist: one candidate remains and the hybrid output has exactly one
record. -/
theorem claim_C10_bounded_candidate_pool_witness :
    (([⟨some 11⟩] : List WItem) ≠ [] ∧
      validIds (buildIndices dfXY) [⟨some 11⟩] ≠ [] ∧
      ([1, 0] : List ℚ).length = dfXY.movies.length ∧
      1 ≤ (hybridCandidates [1, 0]
        (watchIdxsOf (buildIndices dfXY) [⟨some 11⟩]) 1).length) ∧
    (get_hybrid_recommendations dfXY true (buildIndices dfXY) [1, 0]
      [⟨some 11⟩] 1).length = 1 :=
  ⟨⟨by decide, by decide, by decide, by decide⟩,
    (claim_C10_bounded_candidate_pool dfXY (buildIndices dfXY) [1, 0]
      [⟨some 11⟩] 1 (by decide) (by decide) (by decide)).2 (by decide)⟩

theorem colE_length {cond : Prop} [Decidable cond] {f : Movie → Except String ℚ}
    {l : List Movie} {col : List ℚ}
    (h : (if cond then mapE f l else .ok (l.map fun _ => 0)) = .ok col) :
    col.length = l.length := by
  split at h
  · exact mapE_ok_length h
  · cases h
    simp

theorem ratingCol_length (df : DF) : (ratingCol df).length = df.movies.length := by
  unfold ratingCol
  split <;> simp

theorem scoredRowsE_length {df : DF} {p : Prefs} {rows : List (Movie × ℚ)}
    (h : scoredRowsE df p = .ok rows) : rows.length = df.movies.length := by
  unfold scoredRowsE at h
  split at h
  · exact absurd h (by simp)
  next gCol hg =>
    split at h
    · exact absurd h (by simp)
    next dCol hd =>
      split at h
      · exact absurd h (by simp)
      next aCol ha =>
        cases h
        have hgl := colE_length hg
        have hdl := colE_length hd
        have hal := colE_length ha
        simp only [List.length_zip, List.length_zipWith, ratingCol_length,
          hgl, hdl, hal]
        omega

/-- C2 (amended): fallback completeness of `personalized` holds in the case
the claim's premise was meant to capture, namely when every movie's computed
score is zero (e.g. prefs match nothing and no rating-normalization applies):
the popularity padding then fills the result to exactly
`min(limit, catalogSize)` records, so at least that many are returned.  The
unamended claim — prefs matching zero movies — fails when rating
normalization gives some movie a positive score and the popularity ranking
overlaps it (see the counterexample). -/
theorem claim_C2_fallback_allZeroScores (df : DF) (p : Prefs) (limit : ℕ)
    (rows : List (Movie × ℚ)) (hs : scoredRowsE df p = .ok rows)
    (hz : ∀ r ∈ rows, r.2 = 0) :
    ∃ out, get_personalized_recommendations df (some p) limit = .ok out ∧
      min limit df.movies.length ≤ out.1.length := by
  simp only [get_personalized_recommendations]
  by_cases hn : df.movies.length = 0
  · rw [if_pos hn]
    exact ⟨([], []), rfl, by simp [hn]⟩
  · rw [if_neg hn]
    simp only [hs]
    have hzs : ∀ r ∈ (sortDescBy (fun r : Movie × ℚ => r.2) rows).take limit,
        r.2 = 0 :=
      fun r hr => hz r ((sortDescBy_perm _ rows).mem_iff.mp
        (List.mem_of_mem_take hr))
    have hpos : ((sortDescBy (fun r : Movie × ℚ => r.2) rows).take
        limit).filter (fun r => 0 < r.2) = [] := by
      rw [List.filter_eq_nil_iff]
      intro r hr
      simp [hzs r hr]
    rw [hpos]
    by_cases hl : limit = 0
    · subst hl
      rw [if_neg (by simp)]
      refine ⟨_, rfl, ?_⟩
      simp
    · have hlpos : 0 < limit := Nat.pos_of_ne_zero hl
      rw [if_pos (by simpa using hlpos)]
      have hzfil : ((sortDescBy (fun r : Movie × ℚ => r.2) rows).take
          limit).filter (fun r => r.2 = 0) =
          (sortDescBy (fun r : Movie × ℚ => r.2) rows).take limit := by
        rw [List.filter_eq_self]
        intro r hr
        simp [hzs r hr]
      rw [hzfil]
      have hlen_take : ((sortDescBy (fun r : Movie × ℚ => r.2) rows).take
          limit).length = min limit df.movies.length := by
        rw [List.length_take, length_sortDescBy, scoredRowsE_length hs]
      have hzsc_pos : 0 < ((sortDescBy (fun r : Movie × ℚ => r.2) rows).take
          limit).length := by
        rw [hlen_take]
        omega
      rw [if_pos hzsc_pos]
      refine ⟨_, rfl, ?_⟩
      simp only [List.map_nil, List.nil_append, List.length_nil,
        Nat.sub_zero]
      have hfil : (getPopularMovies df ((sortDescBy
          (fun r : Movie × ℚ => r.2) rows).take limit).length).filter
          (fun m => ¬ ([] : List Int).contains m.id) =
          getPopularMovies df ((sortDescBy (fun r : Movie × ℚ => r.2)
            rows).take limit).length := by
        rw [List.filter_eq_self]
        intro m hm
        simp
      rw [hfil]
      have hpoplen : (getPopularMovies df ((sortDescBy
          (fun r : Movie × ℚ => r.2) rows).take limit).length).length =
          min ((sortDescBy (fun r : Movie × ℚ => r.2) rows).take
            limit).length df.movies.length := by
        unfold getPopularMovies
        rw [List.length_take, length_sortDescBy]
      rw [List.length_take, hpoplen, hlen_take]
      omega

/-- Witness for C2 (amended) on the concrete vote-free catalog: both movies
score zero and the padded result has the full `min(2, 2) = 2` records. -/
theorem claim_C2_fallback_allZeroScores_witness :
    (scoredRowsE dfNoVotes prefsZzz = .ok [(mvA, 0), (mvB, 0)] ∧
      ∀ r ∈ [(mvA, (0 : ℚ)), (mvB, 0)], r.2 = 0) ∧
    ∃ out, get_personalized_recommendations dfNoVotes (some prefsZzz) 2 =
      .ok out ∧ min 2 dfNoVotes.movies.length ≤ out.1.length :=
  ⟨⟨by with_unfolding_all decide, by decide⟩,
    claim_C2_fallback_allZeroScores dfNoVotes prefsZzz 2 [(mvA, 0), (mvB, 0)]
      (by with_unfolding_all decide) (by decide)⟩
